import Mathlib

/-!
Verification of the urop-mount-automation repository against its
natural-language specification.

The Lean definitions below are a shallow embedding of the Python sources:

* `src/CUAServoMirror/blacs_workers.py` — position codec (`encoder`,
  `decoder`) and the BLACS worker's `set_position` smart-programming logic;
* `src/main/motor_control.py` — `MotorController.set_goal_positions` (grouped
  staged write) and `MotorController.wait_for_positions` (polling wait);
* `src/main/main.py` — `set_motor_positions`, `get_mean_oscilloscope_value`,
  `blackbox` and the `optimization` orchestrator.

Machine integers are modelled as `Int` (Python ints are unbounded), Python
floats as `ℚ` (every float appearing on the modelled code paths is a small
decimal and no proved property depends on binary-float rounding), wall-clock
time as multiples of the fixed 10 ms poll interval, and the external
collaborators (servo bus, oscilloscope, skopt optimizer proposals,
asynchronous user interruption) as explicit oracle functions.  Python
exceptions are modelled with explicit `Except`/`Option PyErr` results, and
the potentially unbounded `while True` polling loops with an explicit fuel
argument, where `none` means "still looping after `fuel` polls".

The file is laid out as definitions first, then theorems.
-/

namespace UropMount

/-! ## Definitions: position codec (src/CUAServoMirror/blacs_workers.py) -/

/-- `np.clip(x, lo, hi)` on integers: `max lo (min hi x)`. -/
def np_clip (lo hi x : Int) : Int := max lo (min hi x)

/-- `encoder` from `src/CUAServoMirror/blacs_workers.py` (lines 23–31):
clips the logical position to `[-32000, 32000]`, maps non-negative values to
themselves and negative values to `-x + 32767`.  The Python fall-through
(no `return` taken) is modelled as `none`. -/
def encoder (x0 : Int) : Option Int :=
  let x := np_clip (-32000) 32000 x0
  if 0 ≤ x ∧ x ≤ 32767 then some x
  else if x < 0 ∧ -32767 ≤ x then some (-x + 32767)
  else none

/-- `decoder` from `src/CUAServoMirror/blacs_workers.py` (lines 33–41):
clips the wire value to `[0, 65534]`, maps values `≤ 32767` to themselves and
larger values to `-x + 32767`.  The Python fall-through is `none`. -/
def decoder (x0 : Int) : Option Int :=
  let x := np_clip 0 65534 x0
  if 0 ≤ x ∧ x ≤ 32767 then some x
  else if 32767 < x ∧ x ≤ 65534 then some (-x + 32767)
  else none

/-! ## Definitions: `CUAServoMirrorWorker.set_position`

The worker's mutable fields `last_position_horizontal` /
`last_position_vertical` start as Python `None` and are modelled as
`Option Int` (`none` = `None`).  A goal-position write to the servo bus
(`packet_handler.write2ByteTxRx(..., ADDR_SCS_GOAL_POSITION, v)`) is recorded
in the `writes` list; its payload is the encoder output actually passed. -/

/-- The worker state relevant to `set_position`: the two remembered last
written positions and the ordered list of goal-position writes issued. -/
structure MirrorState where
  last_position_horizontal : Option Int
  last_position_vertical : Option Int
  writes : List (Option Int)
deriving DecidableEq

/-- `CUAServoMirrorWorker.set_position` (lines 121–164): encode both
positions; if `fresh` or either encoded value differs from the remembered
last value, write both goal positions, remember them, and return the encoded
pair, else skip the writes ("smart programming") and return `None`. -/
def set_position (s : MirrorState) (horizontal_position vertical_position : Int)
    (fresh : Bool) : MirrorState × Option (Option Int × Option Int) :=
  let hp := encoder horizontal_position
  let vp := encoder vertical_position
  if fresh ∨ s.last_position_horizontal ≠ hp ∨ s.last_position_vertical ≠ vp then
    ({ last_position_horizontal := hp, last_position_vertical := vp,
       writes := s.writes ++ [hp, vp] }, some (hp, vp))
  else (s, none)

/-! ## Definitions: `MotorController.set_goal_positions`
(src/main/motor_control.py)

The scservo-sdk transport (an external collaborator) is modelled as an oracle
giving the outcome of each `groupSyncWrite.addParam` call and of `txPacket`,
together with an explicit trace of the wire-level calls made, so that "how
many transmits happened" is a statement about the trace. -/

/-- `SCS_LOBYTE(w)` from the scservo sdk: `w & 0xFF` (the least non-negative
residue mod 256). -/
def SCS_LOBYTE (w : Int) : Int := w % 256

/-- `SCS_HIBYTE(w)` from the scservo sdk: `(w >> 8) & 0xFF` (arithmetic
shift, i.e. floor division by 256, then mod 256). -/
def SCS_HIBYTE (w : Int) : Int := (Int.fdiv w 256) % 256

/-- `COMM_SUCCESS` from the scservo sdk. -/
def COMM_SUCCESS : Int := 0

/-- One call on the grouped sync-write transport. -/
inductive WireEv
  | clearParam
  | addParam (servo_id : Nat) (params : List Int)
  | txPacket
deriving DecidableEq

/-- Oracle for the grouped sync-write transport: the boolean result of each
`addParam` call and the comm result of `txPacket`. -/
structure SyncWriteBus where
  addParamOk : Nat → List Int → Bool
  txResult : Int

/-- The four servo ids of the `MotorController` (defaults 30, 31, 80, 81). -/
structure ServoIds where
  servo1_id : Nat
  servo2_id : Nat
  servo3_id : Nat
  servo4_id : Nat

/-- `MotorController.set_goal_positions` (lines 263–315): clear staged
parameters, stage the two position bytes of each of the four axes in turn
(raising `RuntimeError` as soon as one `addParam` returns false), then send
one sync-write packet (raising if the comm result is not `COMM_SUCCESS`), and
clear again.  The result is the wire trace together with the raised error, if
any. -/
def set_goal_positions (bus : SyncWriteBus) (ids : ServoIds)
    (position1 position2 position3 position4 : Int) : List WireEv × Option String :=
  let param1 := [SCS_LOBYTE position1, SCS_HIBYTE position1]
  let param2 := [SCS_LOBYTE position2, SCS_HIBYTE position2]
  let param3 := [SCS_LOBYTE position3, SCS_HIBYTE position3]
  let param4 := [SCS_LOBYTE position4, SCS_HIBYTE position4]
  let ev1 := [WireEv.clearParam, WireEv.addParam ids.servo1_id param1]
  if ¬ bus.addParamOk ids.servo1_id param1 then
    (ev1, some "groupSyncWrite addparam failed")
  else
    let ev2 := ev1 ++ [WireEv.addParam ids.servo2_id param2]
    if ¬ bus.addParamOk ids.servo2_id param2 then
      (ev2, some "groupSyncWrite addparam failed")
    else
      let ev3 := ev2 ++ [WireEv.addParam ids.servo3_id param3]
      if ¬ bus.addParamOk ids.servo3_id param3 then
        (ev3, some "groupSyncWrite addparam failed")
      else
        let ev4 := ev3 ++ [WireEv.addParam ids.servo4_id param4]
        if ¬ bus.addParamOk ids.servo4_id param4 then
          (ev4, some "groupSyncWrite addparam failed")
        else
          let ev5 := ev4 ++ [WireEv.txPacket]
          if bus.txResult ≠ COMM_SUCCESS then
            (ev5, some "Sync write failed")
          else
            (ev5 ++ [WireEv.clearParam], none)

/-- The number of transmit (`txPacket`) calls in a wire trace. -/
def txCount (tr : List WireEv) : Nat := tr.count WireEv.txPacket

/-! ## Definitions: `MotorController.wait_for_positions`

The loop polls `read_positions()` once per iteration and sleeps 10 ms between
iterations, so at the `k`-th poll the elapsed time is `k * poll_interval`.
The transport is an oracle `reads : Nat → Except Unit Pos4` giving the
result of the `k`-th grouped read (`.error` = a raising `read_positions`).
The loop itself is `while True`; fuel makes it a total function, with `none`
meaning "still looping after `fuel` polls". -/

/-- One present-position reading of the four servos. -/
structure Pos4 where
  p1 : Int
  p2 : Int
  p3 : Int
  p4 : Int
deriving DecidableEq

/-- The fixed 10 ms sleep between polls (`time.sleep(0.01)`). -/
def poll_interval : ℚ := 1 / 100

/-- The convergence test of `wait_for_positions`: every axis within
`threshold` of its goal. -/
def withinThreshold (goal cur : Pos4) (threshold : Int) : Bool :=
  decide (|goal.p1 - cur.p1| ≤ threshold) && decide (|goal.p2 - cur.p2| ≤ threshold) &&
    decide (|goal.p3 - cur.p3| ≤ threshold) && decide (|goal.p4 - cur.p4| ≤ threshold)

/-- Whether a grouped read succeeded. -/
def isOkE (r : Except Unit Pos4) : Bool :=
  match r with
  | .ok _ => true
  | .error _ => false

/-- The body of `MotorController.wait_for_positions` (lines 393–439) from
poll index `k` on: read; return `True` if converged; else return `False` if
`timeout` is set and the elapsed time exceeds it; else sleep one poll
interval and repeat.  Also returns the next unused read index. -/
def wait_go (reads : Nat → Except Unit Pos4) (goal : Pos4) (threshold : Int)
    (timeout : Option ℚ) (k : Nat) (fuel : Nat) : Option (Except Unit Bool × Nat) :=
  match fuel with
  | 0 => none
  | fuel + 1 =>
    match reads k with
    | .error e => some (.error e, k + 1)
    | .ok cur =>
      if withinThreshold goal cur threshold then some (.ok true, k + 1)
      else
        match timeout with
        | some t =>
          if (k : ℚ) * poll_interval > t then some (.ok false, k + 1)
          else wait_go reads goal threshold timeout (k + 1) fuel
        | none => wait_go reads goal threshold timeout (k + 1) fuel

/-- Enough fuel for `wait_go` with timeout `t`: one poll past the first index
whose elapsed time exceeds `t`. -/
def timeoutFuel (t : ℚ) : Nat := (⌈t * 100⌉).toNat + 2

/-- `MotorController.wait_for_positions`: the polling loop started at poll
index 0. -/
def wait_for_positions (reads : Nat → Except Unit Pos4) (goal : Pos4) (threshold : Int)
    (timeout : Option ℚ) (fuel : Nat) : Option (Except Unit Bool × Nat) :=
  wait_go reads goal threshold timeout 0 fuel

/-! ## Definitions: `src/main/main.py`

The module-level configuration constants, the objective pipeline
(`set_motor_positions`, `get_mean_oscilloscope_value`, `blackbox`) and the
`optimization` orchestrator.  The external world is one oracle record `Env`:
the stream of grouped present-position reads, the oscilloscope's capture
buffer at each `read_values` call, the sync-write bus outcomes, the skopt
optimizer's proposals (an external library, abstracted as an arbitrary
sequence), and the poll index at which an asynchronous `KeyboardInterrupt`
arrives, if any.  `MainSt` counts how far each oracle stream has been
consumed and records every successfully transmitted motor command. -/

/-- Python exceptions relevant to `main.py`.  `signalNotDetected` is the
exception named by the specification's objective-function design; nothing in
the code defines or raises it, and it is included only so that its absence
can be stated. -/
inductive PyErr
  | runtimeError (msg : String)
  | keyboardInterrupt
  | signalNotDetected
deriving DecidableEq

/-- The external world of `main.py` as oracles. -/
structure Env where
  motorReads : Nat → Except Unit Pos4
  scopeData : Nat → List ℚ
  bus : SyncWriteBus
  ids : ServoIds
  proposals : Nat → ℚ × ℚ × ℚ × ℚ
  interruptAt : Option Nat

/-- Observable progress of a `main.py` run: how many grouped motor reads and
oscilloscope `read_values` calls have happened, and the list of motor goal
commands successfully transmitted, in order. -/
structure MainSt where
  motorIdx : Nat
  scopeIdx : Nat
  cmds : List Pos4
deriving DecidableEq

/-- `MIN_POSITION` (main.py line 19). -/
def MIN_POSITION : ℚ := 500

/-- `MAX_POSITION` (main.py line 20). -/
def MAX_POSITION : ℚ := 3500

/-- `OSCILLOSCOPE_SCALING_OFFSET` (main.py line 24). -/
def OSCILLOSCOPE_SCALING_OFFSET : ℚ := 8000000

/-- `OSCILLOSCOPE_SCALING_FACTOR` (main.py line 25). -/
def OSCILLOSCOPE_SCALING_FACTOR : ℚ := 10000000

/-- `np.clip` on rationals. -/
def np_clipQ (lo hi x : ℚ) : ℚ := max lo (min hi x)

/-- Python `int()` on a rational: truncation toward zero. -/
def pyInt (q : ℚ) : Int := if q < 0 then ⌈q⌉ else ⌊q⌋

/-- `motor_controller.set_goal_positions` as seen from `main.py`: a raised
staging/transmit error, or one successfully transmitted goal command
appended to the command list. -/
def mc_set_goal_positions (env : Env) (st : MainSt) (p : Pos4) : Option PyErr × MainSt :=
  match (set_goal_positions env.bus env.ids p.p1 p.p2 p.p3 p.p4).2 with
  | some msg => (some (.runtimeError msg), st)
  | none => (none, { st with cmds := st.cmds ++ [p] })

/-- `motor_controller.read_positions` as seen from `main.py`: consume one
grouped read; a failed read raises `RuntimeError`. -/
def mc_read_positions (env : Env) (st : MainSt) : Except PyErr Pos4 × MainSt :=
  match env.motorReads st.motorIdx with
  | .error _ => (.error (.runtimeError "Sync read failed"), { st with motorIdx := st.motorIdx + 1 })
  | .ok p => (.ok p, { st with motorIdx := st.motorIdx + 1 })

/-- `motor_controller.wait_for_positions` as seen from `main.py`: run the
polling loop on the remaining read stream and account for the reads it
consumed.  `none` is fuel exhaustion of the embedding, impossible for the
fuel `timeoutFuel t` actually passed. -/
def mc_wait_for_positions (env : Env) (st : MainSt) (goal : Pos4) (threshold : Int)
    (t : ℚ) : Option (Except PyErr Bool × MainSt) :=
  match wait_for_positions (fun k => env.motorReads (st.motorIdx + k)) goal threshold
      (some t) (timeoutFuel t) with
  | none => none
  | some (.error _, m) =>
    some (.error (.runtimeError "Sync read failed"), { st with motorIdx := st.motorIdx + m })
  | some (.ok b, m) => some (.ok b, { st with motorIdx := st.motorIdx + m })

/-- `set_motor_positions` (main.py lines 59–89): if any axis value lies
outside `[MIN_POSITION, MAX_POSITION]`, return immediately; otherwise clip
and truncate each axis to an int, transmit the grouped goal command, and wait
for convergence with `timeout=5.0`, discarding the boolean result. -/
def set_motor_positions (env : Env) (st : MainSt) (pos1 pos2 pos3 pos4 : ℚ)
    (threshold : Int) : Option (Option PyErr × MainSt) :=
  if pos1 < MIN_POSITION ∨ pos1 > MAX_POSITION ∨ pos2 < MIN_POSITION ∨ pos2 > MAX_POSITION ∨
      pos3 < MIN_POSITION ∨ pos3 > MAX_POSITION ∨ pos4 < MIN_POSITION ∨ pos4 > MAX_POSITION then
    some (none, st)
  else
    let goal : Pos4 := ⟨pyInt (np_clipQ MIN_POSITION MAX_POSITION pos1),
      pyInt (np_clipQ MIN_POSITION MAX_POSITION pos2),
      pyInt (np_clipQ MIN_POSITION MAX_POSITION pos3),
      pyInt (np_clipQ MIN_POSITION MAX_POSITION pos4)⟩
    match mc_set_goal_positions env st goal with
    | (some e, st1) => some (some e, st1)
    | (none, st1) =>
      match mc_wait_for_positions env st1 goal threshold 5 with
      | none => none
      | some (.error e, st2) => some (some e, st2)
      | some (.ok _, st2) => some (none, st2)

/-- The `while True` buffer-fill loop of `get_mean_oscilloscope_value`
(main.py lines 101–107), from `read_values` call index `k` on: if the
asynchronous `KeyboardInterrupt` arrives at this call it is raised here;
else, if the capture buffer holds at least 3 points, return the mean of the
most recent 3 and the next call index; else sleep 10 ms and poll again. -/
def get_mean_go (env : Env) (k : Nat) (fuel : Nat) : Option (Except PyErr (ℚ × Nat)) :=
  match fuel with
  | 0 => none
  | fuel + 1 =>
    if env.interruptAt = some k then some (.error .keyboardInterrupt)
    else
      let data := env.scopeData k
      if 3 ≤ data.length then
        some (.ok ((data.drop (data.length - 3)).sum / 3, k + 1))
      else get_mean_go env (k + 1) fuel

/-- `get_mean_oscilloscope_value` (main.py lines 92–107): sleep the settle
delay (time only, not modelled), then run the buffer-fill loop from the
current `read_values` index. -/
def get_mean_oscilloscope_value (env : Env) (st : MainSt) (meanFuel : Nat) :
    Option (Except PyErr ℚ × MainSt) :=
  match get_mean_go env st.scopeIdx meanFuel with
  | none => none
  | some (.error e) => some (.error e, st)
  | some (.ok (m, idx)) => some (.ok m, { st with scopeIdx := idx })

/-- `blackbox` (main.py lines 32–56): set the motor positions (out-of-range
inputs make this a no-op), sample the oscilloscope mean, and return
`(mean - OSCILLOSCOPE_SCALING_OFFSET) / OSCILLOSCOPE_SCALING_FACTOR`. -/
def blackbox (env : Env) (st : MainSt) (pos1 pos2 pos3 pos4 : ℚ)
    (position_threshold : Int) (meanFuel : Nat) : Option (Except PyErr ℚ × MainSt) :=
  match set_motor_positions env st pos1 pos2 pos3 pos4 position_threshold with
  | none => none
  | some (some e, st1) => some (.error e, st1)
  | some (none, st1) =>
    match get_mean_oscilloscope_value env st1 meanFuel with
    | none => none
    | some (.error e, st2) => some (.error e, st2)
    | some (.ok mean, st2) =>
      some (.ok ((mean - OSCILLOSCOPE_SCALING_OFFSET) / OSCILLOSCOPE_SCALING_FACTOR), st2)

/-! ## Definitions: the `optimization` orchestrator (main.py lines 110–321)

The manual (coordinate-scan) phase and the surrogate (skopt) phase, each
wrapped in Python `try/except KeyboardInterrupt / except Exception` blocks
that print and fall through.  The best values start at `-np.inf`, modelled as
`(⊥ : WithBot ℚ)`.  The float expression `int(500 / 1.8**i)` is modelled
exactly over `ℚ` as `⌊500 / (9/5)^i⌋`. -/

/-- Replace one axis of a position vector (the assignment
`manual_best_pos[axis] = pos`). -/
def setAxis (a : Fin 4) (p : Pos4) (c : Int) : Pos4 :=
  match a with
  | 0 => { p with p1 := c }
  | 1 => { p with p2 := c }
  | 2 => { p with p3 := c }
  | 3 => { p with p4 := c }

/-- Python `range(lo, hi, step)` for a positive step. -/
def pyRange (lo hi step : Int) : List Int :=
  (List.range (if lo < hi then ((hi - lo + step - 1) / step).toNat else 0)).map
    (fun j => lo + step * j)

/-- `int(500 / (1.8 ** i))` (main.py lines 146–153). -/
def scanRadius (i : Nat) : Int := ⌊(500 : ℚ) / ((9 / 5 : ℚ) ^ i)⌋

/-- `max(1, 10 // (i + 1))` (main.py line 159 etc.). -/
def scanStep (i : Nat) : Int := ((max 1 (10 / (i + 1)) : Nat) : Int)

/-- One inner scan of the manual search (e.g. main.py lines 159–173): walk
the candidate positions of axis `a`, holding the other axes at the running
best; move, sample, and update the running best exactly when the observed
mean strictly exceeds it.  Returns the raised exception (if any), the state,
and the final best position/value. -/
def scanAxis (env : Env) (meanFuel : Nat) (threshold : Int) (a : Fin 4) :
    List Int → MainSt → Pos4 → WithBot ℚ →
    Option (Option PyErr × MainSt × Pos4 × WithBot ℚ)
  | [], st, bp, bestY => some (none, st, bp, bestY)
  | c :: rest, st, bp, bestY =>
    let trial := setAxis a bp c
    match set_motor_positions env st (trial.p1 : ℚ) (trial.p2 : ℚ) (trial.p3 : ℚ)
        (trial.p4 : ℚ) threshold with
    | none => none
    | some (some e, st1) => some (some e, st1, bp, bestY)
    | some (none, st1) =>
      match get_mean_oscilloscope_value env st1 meanFuel with
      | none => none
      | some (.error e, st2) => some (some e, st2, bp, bestY)
      | some (.ok mean, st2) =>
        if bestY < (mean : WithBot ℚ) then
          scanAxis env meanFuel threshold a rest st2 trial (mean : WithBot ℚ)
        else
          scanAxis env meanFuel threshold a rest st2 bp bestY

/-- One outer iteration `i` of the manual search (main.py lines 138–225):
re-seed `manual_best_pos` from a fresh grouped read, compute the four scan
ranges from the seed, scan the four axes in order, then command the
iteration's best position. -/
def manualIter (env : Env) (meanFuel : Nat) (threshold : Int) (i : Nat)
    (st : MainSt) (bestY : WithBot ℚ) : Option (Option PyErr × MainSt × WithBot ℚ) :=
  match mc_read_positions env st with
  | (.error e, st1) => some (some e, st1, bestY)
  | (.ok pos, st1) =>
    let r := scanRadius i
    let step := scanStep i
    let cands1 := pyRange (pos.p1 - r) (pos.p1 + r) step
    let cands2 := pyRange (pos.p2 - r) (pos.p2 + r) step
    let cands3 := pyRange (pos.p3 - r) (pos.p3 + r) step
    let cands4 := pyRange (pos.p4 - r) (pos.p4 + r) step
    match scanAxis env meanFuel threshold 0 cands1 st1 pos bestY with
    | none => none
    | some (some e, st2, _, y2) => some (some e, st2, y2)
    | some (none, st2, bp2, y2) =>
      match scanAxis env meanFuel threshold 1 cands2 st2 bp2 y2 with
      | none => none
      | some (some e, st3, _, y3) => some (some e, st3, y3)
      | some (none, st3, bp3, y3) =>
        match scanAxis env meanFuel threshold 2 cands3 st3 bp3 y3 with
        | none => none
        | some (some e, st4, _, y4) => some (some e, st4, y4)
        | some (none, st4, bp4, y4) =>
          match scanAxis env meanFuel threshold 3 cands4 st4 bp4 y4 with
          | none => none
          | some (some e, st5, _, y5) => some (some e, st5, y5)
          | some (none, st5, bp5, y5) =>
            match set_motor_positions env st5 (bp5.p1 : ℚ) (bp5.p2 : ℚ) (bp5.p3 : ℚ)
                (bp5.p4 : ℚ) threshold with
            | none => none
            | some (some e, st6) => some (some e, st6, y5)
            | some (none, st6) => some (none, st6, y5)

/-- The manual-search outer loop (`for i in range(manual_search_iterations)`),
stopping at the first raised exception, which the enclosing `try/except`
will swallow. -/
def manualLoop (env : Env) (meanFuel : Nat) (threshold : Int) :
    Nat → Nat → MainSt → WithBot ℚ → Option (Option PyErr × MainSt × WithBot ℚ)
  | 0, _, st, bestY => some (none, st, bestY)
  | n + 1, i, st, bestY =>
    match manualIter env meanFuel threshold i st bestY with
    | none => none
    | some (some e, st1, y1) => some (some e, st1, y1)
    | some (none, st1, y1) => manualLoop env meanFuel threshold n (i + 1) st1 y1

/-- The surrogate-phase loop (main.py lines 275–289): ask the optimizer
oracle for a proposal, evaluate `blackbox` with `position_threshold = 1`,
report `-y` back to the surrogate (external, not observable here), and
update the best pair exactly when `y` strictly exceeds the best value. -/
def surrogateLoop (env : Env) (meanFuel : Nat) :
    Nat → Nat → MainSt → Option (ℚ × ℚ × ℚ × ℚ) → WithBot ℚ →
    Option (Option PyErr × MainSt × Option (ℚ × ℚ × ℚ × ℚ) × WithBot ℚ)
  | 0, _, st, bp, bestY => some (none, st, bp, bestY)
  | n + 1, t, st, bp, bestY =>
    let x := env.proposals t
    match blackbox env st x.1 x.2.1 x.2.2.1 x.2.2.2 1 meanFuel with
    | none => none
    | some (.error e, st1) => some (some e, st1, bp, bestY)
    | some (.ok y, st1) =>
      if bestY < (y : WithBot ℚ) then
        surrogateLoop env meanFuel n (t + 1) st1 (some x) (y : WithBot ℚ)
      else surrogateLoop env meanFuel n (t + 1) st1 bp bestY

/-- How one run of `optimization` ends: returning `(best_y, duration)` after
commanding the best position, or returning `None` after an exception was
caught and logged in the surrogate phase. -/
inductive OptOutcome
  | completed (best_y : WithBot ℚ)
  | interrupted
deriving DecidableEq

/-- `optimization` (main.py lines 110–321): run the manual-search phase
(its `try/except` swallows any exception), re-read the positions (outside
both `try` blocks, so a fault here propagates), run the surrogate phase, and
on its normal completion command the best-found position and return the best
value; an exception caught in the surrogate phase — including the `TypeError`
of subscripting a still-`None` `best_pos` — makes the function return `None`
(`.interrupted`) with no further motor command. -/
def optimization (env : Env) (meanFuel : Nat) (position_threshold : Int)
    (manual_search_iterations optimization_iterations : Nat) (st : MainSt) :
    Option (Except PyErr OptOutcome × MainSt) :=
  match manualLoop env meanFuel position_threshold manual_search_iterations 0 st ⊥ with
  | none => none
  | some (_, st1, _) =>
    match mc_read_positions env st1 with
    | (.error e, st2) => some (.error e, st2)
    | (.ok _, st2) =>
      match surrogateLoop env meanFuel optimization_iterations 0 st2 none ⊥ with
      | none => none
      | some (some _, st3, _, _) => some (.ok .interrupted, st3)
      | some (none, st3, none, _) => some (.ok .interrupted, st3)
      | some (none, st3, some x, bestY) =>
        match set_motor_positions env st3 x.1 x.2.1 x.2.2.1 x.2.2.2 1 with
        | none => none
        | some (some _, st4) => some (.ok .interrupted, st4)
        | some (none, st4) => some (.ok (.completed bestY), st4)

/-! ## Definitions: concrete oracles for witnesses and counterexamples -/

/-- The initial observable state: nothing consumed, nothing commanded. -/
def st0 : MainSt := ⟨0, 0, []⟩

/-- A healthy world: the servos always read `(1000, 1000, 1000, 1000)`, the
oscilloscope buffer always holds `[1, 2, 3]`, the bus accepts everything, no
interruption. -/
def envA : Env :=
  { motorReads := fun _ => .ok ⟨1000, 1000, 1000, 1000⟩
    scopeData := fun _ => [1, 2, 3]
    bus := { addParamOk := fun _ _ => true, txResult := 0 }
    ids := ⟨30, 31, 80, 81⟩
    proposals := fun _ => (1000, 1000, 1000, 1000)
    interruptAt := none }

/-- The world of the C7 counterexample: as `envA`, but the optimizer proposes
`(1000,…)` then `(1001,…)`, and a `KeyboardInterrupt` arrives at the second
oscilloscope read. -/
def envB : Env :=
  { motorReads := fun _ => .ok ⟨1000, 1000, 1000, 1000⟩
    scopeData := fun _ => [1, 2, 3]
    bus := { addParamOk := fun _ _ => true, txResult := 0 }
    ids := ⟨30, 31, 80, 81⟩
    proposals := fun t => if t = 0 then (1000, 1000, 1000, 1000) else (1001, 1001, 1001, 1001)
    interruptAt := some 1 }

/-- The world of the C6 counterexample: the servos always read
`(0, 0, 0, 0)` and the oscilloscope buffer is always empty. -/
def envC6 : Env :=
  { motorReads := fun _ => .ok ⟨0, 0, 0, 0⟩
    scopeData := fun _ => []
    bus := { addParamOk := fun _ _ => true, txResult := 0 }
    ids := ⟨30, 31, 80, 81⟩
    proposals := fun _ => (1000, 1000, 1000, 1000)
    interruptAt := none }

end UropMount

namespace UropMount

/-! ## Theorems -/

/-- Unfolding equation for one iteration of `wait_go`. -/
theorem wait_go_succ (reads : Nat → Except Unit Pos4) (goal : Pos4) (threshold : Int)
    (timeout : Option ℚ) (k : Nat) (fuel : Nat) :
    wait_go reads goal threshold timeout k (fuel + 1) =
      match reads k with
      | .error e => some (.error e, k + 1)
      | .ok cur =>
        if withinThreshold goal cur threshold then some (.ok true, k + 1)
        else
          match timeout with
          | some t =>
            if (k : ℚ) * poll_interval > t then some (.ok false, k + 1)
            else wait_go reads goal threshold timeout (k + 1) fuel
          | none => wait_go reads goal threshold timeout (k + 1) fuel := rfl

/-- C1: for every logical position `x` strictly inside the encoder's
safety-clip range `[-32000, 32000]`, decoding the encoded value returns `x`
exactly: `decoder (encoder x) = x`. -/
theorem decoder_encoder_roundtrip (x : Int) (h1 : -32000 < x) (h2 : x < 32000) :
    (encoder x).bind decoder = some x := by
  simp only [encoder, np_clip]
  split_ifs with ha hb
  · simp only [Option.some_bind, decoder, np_clip]
    split_ifs with hc hd
    · simp only [Option.some.injEq]; omega
    · exfalso; omega
    · exfalso; omega
  · simp only [Option.some_bind, decoder, np_clip]
    split_ifs with hc hd
    · exfalso; omega
    · simp only [Option.some.injEq]; omega
    · exfalso; omega
  · exfalso; omega

/-- Witness for C1 at the concrete logical position `-31999`. -/
theorem decoder_encoder_roundtrip_witness :
    (encoder (-31999)).bind decoder = some (-31999) :=
  decoder_encoder_roundtrip (-31999) (by decide) (by decide)

/-- C10: `encoder` and `decoder` are total on every integer input (the
fall-through branch is unreachable after the initial clip), and their outputs
lie in the wire domain `[0, 64767]` and the logical domain `[-32767, 32767]`
respectively. -/
theorem encoder_decoder_total_and_in_range (x y : Int) :
    (∃ v, encoder x = some v ∧ 0 ≤ v ∧ v ≤ 64767) ∧
    (∃ w, decoder y = some w ∧ -32767 ≤ w ∧ w ≤ 32767) := by
  constructor
  · simp only [encoder, np_clip]
    split_ifs with ha hb
    · exact ⟨_, rfl, by omega, by omega⟩
    · exact ⟨_, rfl, by omega, by omega⟩
    · exfalso; omega
  · simp only [decoder, np_clip]
    split_ifs with ha hb
    · exact ⟨_, rfl, by omega, by omega⟩
    · exact ⟨_, rfl, by omega, by omega⟩
    · exfalso; omega

/-- C9: with `fresh = false` and both encoded positions equal to the last
positions written, `set_position` performs no goal-position write and returns
`None`; in every other case it writes both encoded positions, records them as
the last written positions, and returns the encoded pair. -/
theorem set_position_smart_programming (s : MirrorState) (h v : Int) :
    (encoder h = s.last_position_horizontal → encoder v = s.last_position_vertical →
      set_position s h v false = (s, none)) ∧
    (∀ fresh : Bool,
      (fresh = true ∨ encoder h ≠ s.last_position_horizontal ∨
        encoder v ≠ s.last_position_vertical) →
      set_position s h v fresh =
        ({ last_position_horizontal := encoder h, last_position_vertical := encoder v,
           writes := s.writes ++ [encoder h, encoder v] },
          some (encoder h, encoder v))) := by
  constructor
  · intro hh hv
    simp [set_position, hh, hv]
  · intro fresh hcase
    rcases hcase with hf | hne | hne
    · subst hf; simp [set_position]
    · have hne2 : ¬ (s.last_position_horizontal = encoder h) := fun e => hne e.symm
      simp [set_position, hne2]
    · have hne2 : ¬ (s.last_position_vertical = encoder v) := fun e => hne e.symm
      simp [set_position, hne2]

/-- C4: `set_goal_positions` is atomic at the transport boundary.  If staging
(`addParam`) fails for any of the four axes, the function raises before any
transmit is attempted (`txPacket` count zero, no motion commanded); if all
four axes stage successfully, exactly one transmit happens. -/
theorem set_goal_positions_atomic (bus : SyncWriteBus) (ids : ServoIds)
    (p1 p2 p3 p4 : Int) :
    (¬ (bus.addParamOk ids.servo1_id [SCS_LOBYTE p1, SCS_HIBYTE p1] ∧
        bus.addParamOk ids.servo2_id [SCS_LOBYTE p2, SCS_HIBYTE p2] ∧
        bus.addParamOk ids.servo3_id [SCS_LOBYTE p3, SCS_HIBYTE p3] ∧
        bus.addParamOk ids.servo4_id [SCS_LOBYTE p4, SCS_HIBYTE p4]) →
      (set_goal_positions bus ids p1 p2 p3 p4).2.isSome = true ∧
      txCount (set_goal_positions bus ids p1 p2 p3 p4).1 = 0) ∧
    ((bus.addParamOk ids.servo1_id [SCS_LOBYTE p1, SCS_HIBYTE p1] ∧
        bus.addParamOk ids.servo2_id [SCS_LOBYTE p2, SCS_HIBYTE p2] ∧
        bus.addParamOk ids.servo3_id [SCS_LOBYTE p3, SCS_HIBYTE p3] ∧
        bus.addParamOk ids.servo4_id [SCS_LOBYTE p4, SCS_HIBYTE p4]) →
      txCount (set_goal_positions bus ids p1 p2 p3 p4).1 = 1) := by
  by_cases h1 : bus.addParamOk ids.servo1_id [SCS_LOBYTE p1, SCS_HIBYTE p1] <;>
    by_cases h2 : bus.addParamOk ids.servo2_id [SCS_LOBYTE p2, SCS_HIBYTE p2] <;>
      by_cases h3 : bus.addParamOk ids.servo3_id [SCS_LOBYTE p3, SCS_HIBYTE p3] <;>
        by_cases h4 : bus.addParamOk ids.servo4_id [SCS_LOBYTE p4, SCS_HIBYTE p4] <;>
          by_cases h5 : bus.txResult = COMM_SUCCESS <;>
            simp [set_goal_positions, txCount, h1, h2, h3, h4, h5, List.count_append]

/-- Helper: with a timeout set, `wait_go` returns within any fuel that takes
the elapsed time past the timeout. -/
theorem wait_go_total_aux (reads : Nat → Except Unit Pos4) (goal : Pos4) (threshold : Int)
    (t : ℚ) : ∀ (n k : Nat), t < ((k + n : Nat) : ℚ) * poll_interval →
      (wait_go reads goal threshold (some t) k (n + 1)).isSome = true := by
  intro n
  induction n with
  | zero =>
    intro k hk
    rw [wait_go_succ]
    cases hr : reads k with
    | error e => simp
    | ok cur =>
      by_cases hw : withinThreshold goal cur threshold
      · simp [hw]
      · have hkt : (k : ℚ) * poll_interval > t := by push_cast at hk ⊢; linarith
        simp [hw, hkt]
  | succ m ih =>
    intro k hk
    rw [wait_go_succ]
    cases hr : reads k with
    | error e => simp
    | ok cur =>
      by_cases hw : withinThreshold goal cur threshold
      · simp [hw]
      · by_cases hkt : (k : ℚ) * poll_interval > t
        · simp [hw, hkt]
        · have hrec := ih (k + 1) (by push_cast at hk ⊢; linarith)
          simp [hw, hkt, hrec]

/-- Helper: if the reads up to poll `k + n` succeed and poll `k + n` is
converged within the timeout, the loop started at `k` returns `True`. -/
theorem wait_go_converges (reads : Nat → Except Unit Pos4) (goal : Pos4) (threshold : Int)
    (t : ℚ) : ∀ (n k : Nat), (∀ j, k ≤ j → j ≤ k + n → isOkE (reads j) = true) →
      (∃ p, reads (k + n) = .ok p ∧ withinThreshold goal p threshold = true) →
      ((k + n : Nat) : ℚ) * poll_interval ≤ t →
      ∃ m, wait_go reads goal threshold (some t) k (n + 1) = some (.ok true, m) := by
  intro n
  induction n with
  | zero =>
    intro k hok hconv hle
    obtain ⟨p, hp, hw⟩ := hconv
    refine ⟨k + 1, ?_⟩
    rw [wait_go_succ]
    simp only [Nat.add_zero] at hp
    rw [hp]
    simp [hw]
  | succ m ih =>
    intro k hok hconv hle
    rw [wait_go_succ]
    have hk := hok k (le_refl _) (by omega)
    cases hr : reads k with
    | error e => rw [hr] at hk; simp [isOkE] at hk
    | ok cur =>
      by_cases hw : withinThreshold goal cur threshold
      · exact ⟨k + 1, by simp [hw]⟩
      · have hmono : ((k : Nat) : ℚ) * poll_interval ≤
            ((k + (m + 1) : Nat) : ℚ) * poll_interval := by
          have hle2 : ((k : Nat) : ℚ) ≤ ((k + (m + 1) : Nat) : ℚ) := by
            exact_mod_cast Nat.le_add_right _ _
          have hp0 : (0 : ℚ) < poll_interval := by rw [poll_interval]; norm_num
          nlinarith
        have hkt : ¬ ((k : ℚ) * poll_interval > t) := by
          intro hgt
          push_cast at hmono hle
          linarith
        have hrec := ih (k + 1) (fun j hj1 hj2 => hok j (by omega) (by omega))
            (by rw [show k + 1 + m = k + (m + 1) by omega]; exact hconv)
            (by rw [show k + 1 + m = k + (m + 1) by omega]; exact hle)
        obtain ⟨mm, hmm⟩ := hrec
        refine ⟨mm, ?_⟩
        simp [hw, hkt, hmm]

/-- Helper: if every read succeeds but never converges, the loop returns
`False` once the elapsed time exceeds the timeout. -/
theorem wait_go_times_out (reads : Nat → Except Unit Pos4) (goal : Pos4) (threshold : Int)
    (t : ℚ) (hall : ∀ j, ∃ p, reads j = .ok p ∧ withinThreshold goal p threshold = false) :
    ∀ (n k : Nat), t < ((k + n : Nat) : ℚ) * poll_interval →
      ∃ m, wait_go reads goal threshold (some t) k (n + 1) = some (.ok false, m) := by
  intro n
  induction n with
  | zero =>
    intro k hk
    obtain ⟨p, hp, hw⟩ := hall k
    refine ⟨k + 1, ?_⟩
    rw [wait_go_succ, hp]
    have hkt : (k : ℚ) * poll_interval > t := by push_cast at hk ⊢; linarith
    simp [hw, hkt]
  | succ m ih =>
    intro k hk
    obtain ⟨p, hp, hw⟩ := hall k
    by_cases hkt : (k : ℚ) * poll_interval > t
    · refine ⟨k + 1, ?_⟩
      rw [wait_go_succ, hp]
      simp [hw, hkt]
    · obtain ⟨mm, hmm⟩ := ih (k + 1) (by push_cast at hk ⊢; linarith)
      refine ⟨mm, ?_⟩
      rw [wait_go_succ, hp]
      simp [hw, hkt, hmm]

/-- Helper: when every read succeeds, the loop never returns a transport
error. -/
theorem wait_go_no_raise (reads : Nat → Except Unit Pos4) (goal : Pos4) (threshold : Int)
    (timeout : Option ℚ) (hok : ∀ j, isOkE (reads j) = true) :
    ∀ (fuel k : Nat) (r : Except Unit Bool) (m : Nat),
      wait_go reads goal threshold timeout k fuel = some (r, m) → ∃ b, r = .ok b := by
  intro fuel
  induction fuel with
  | zero => intro k r m h; simp [wait_go] at h
  | succ f ih =>
    intro k r m h
    rw [wait_go_succ] at h
    have hk := hok k
    cases hr : reads k with
    | error e => rw [hr] at hk; simp [isOkE] at hk
    | ok cur =>
      rw [hr] at h
      by_cases hw : withinThreshold goal cur threshold
      · simp [hw] at h
        exact ⟨true, h.1.symm⟩
      · simp only [hw, Bool.false_eq_true, if_false] at h
        cases timeout with
        | none => exact ih (k + 1) r m h
        | some t =>
          by_cases hkt : (k : ℚ) * poll_interval > t
          · simp [hkt] at h
            exact ⟨false, h.1.symm⟩
          · simp [hkt] at h
            exact ih (k + 1) r m h

/-- C3: with a non-`None` timeout `t`, `wait_for_positions` (i) returns
`True` if the reads succeed and some poll `kc` within the timeout sees every
axis within `threshold` of its goal, (ii) returns `False` (without raising)
when the reads succeed but never converge, once the elapsed time exceeds `t`,
and (iii) raises only on a transport fault of an underlying read: with
fault-free reads every outcome is a boolean, never an error. -/
theorem wait_for_positions_spec (reads : Nat → Except Unit Pos4) (goal : Pos4)
    (threshold : Int) (t : ℚ) (kc : Nat) :
    ((∀ j, j ≤ kc → isOkE (reads j) = true) →
      (∃ p, reads kc = .ok p ∧ withinThreshold goal p threshold = true) →
      ((kc : Nat) : ℚ) * poll_interval ≤ t →
      ∃ m, wait_for_positions reads goal threshold (some t) (kc + 1) = some (.ok true, m)) ∧
    ((∀ j, ∃ p, reads j = .ok p ∧ withinThreshold goal p threshold = false) →
      ∃ m, wait_for_positions reads goal threshold (some t) (timeoutFuel t) =
        some (.ok false, m)) ∧
    ((∀ j, isOkE (reads j) = true) →
      ∀ fuel r m, wait_for_positions reads goal threshold (some t) fuel = some (r, m) →
        ∃ b, r = .ok b) := by
  refine ⟨?_, ?_, ?_⟩
  · intro hok hconv hle
    exact wait_go_converges reads goal threshold t kc 0
      (fun j hj1 hj2 => hok j (by omega))
      (by rw [Nat.zero_add]; exact hconv)
      (by rw [Nat.zero_add]; exact hle)
  · intro hall
    have hb : t < (((0 + ((⌈t * 100⌉).toNat + 1) : Nat)) : ℚ) * poll_interval := by
      have hc1 : t * 100 ≤ (⌈t * 100⌉ : ℚ) := Int.le_ceil _
      have hc2 : (⌈t * 100⌉ : ℚ) ≤ ((⌈t * 100⌉).toNat : ℚ) := by
        exact_mod_cast Int.self_le_toNat _
      push_cast
      rw [poll_interval]
      linarith
    have hres := wait_go_times_out reads goal threshold t hall ((⌈t * 100⌉).toNat + 1) 0 hb
    have he : timeoutFuel t = (⌈t * 100⌉).toNat + 1 + 1 := by unfold timeoutFuel; omega
    rw [wait_for_positions, he]
    exact hres
  · intro hok fuel r m h
    exact wait_go_no_raise reads goal threshold (some t) hok fuel 0 r m h

/-! ### Evaluation helpers for concrete runs -/

/-- The buffer-fill loop with no fuel left. -/
theorem get_mean_go_zero (env : Env) (k : Nat) : get_mean_go env k 0 = none := rfl

/-- Unfolding equation for one iteration of the buffer-fill loop. -/
theorem get_mean_go_succ (env : Env) (k fuel : Nat) :
    get_mean_go env k (fuel + 1) =
      if env.interruptAt = some k then some (.error .keyboardInterrupt)
      else
        let data := env.scopeData k
        if 3 ≤ data.length then
          some (.ok ((data.drop (data.length - 3)).sum / 3, k + 1))
        else get_mean_go env (k + 1) fuel := rfl

/-- The manual-search loop with zero iterations. -/
theorem manualLoop_zero (env : Env) (mf : Nat) (thr : Int) (i : Nat) (st : MainSt)
    (bY : WithBot ℚ) : manualLoop env mf thr 0 i st bY = some (none, st, bY) := rfl

/-- The surrogate loop with zero iterations. -/
theorem surrogateLoop_zero (env : Env) (mf t : Nat) (st : MainSt)
    (bp : Option (ℚ × ℚ × ℚ × ℚ)) (bY : WithBot ℚ) :
    surrogateLoop env mf 0 t st bp bY = some (none, st, bp, bY) := rfl

/-- Unfolding equation for one iteration of the surrogate loop. -/
theorem surrogateLoop_succ (env : Env) (mf n t : Nat) (st : MainSt)
    (bp : Option (ℚ × ℚ × ℚ × ℚ)) (bY : WithBot ℚ) :
    surrogateLoop env mf (n + 1) t st bp bY =
      (let x := env.proposals t
       match blackbox env st x.1 x.2.1 x.2.2.1 x.2.2.2 1 mf with
       | none => none
       | some (.error e, st1) => some (some e, st1, bp, bY)
       | some (.ok y, st1) =>
         if bY < (y : WithBot ℚ) then
           surrogateLoop env mf n (t + 1) st1 (some x) (y : WithBot ℚ)
         else surrogateLoop env mf n (t + 1) st1 bp bY) := rfl

/-- Helper: a wait whose first poll already sees a converged reading returns `True` after consuming one read. -/
theorem mc_wait_converged (env : Env) (st : MainSt) (goal : Pos4) (threshold : Int)
    (t : ℚ) (p : Pos4) (hr : env.motorReads st.motorIdx = .ok p)
    (hw : withinThreshold goal p threshold = true) :
    mc_wait_for_positions env st goal threshold t =
      some (.ok true, { st with motorIdx := st.motorIdx + 1 }) := by
  unfold mc_wait_for_positions wait_for_positions
  rw [show timeoutFuel t = (⌈t * 100⌉).toNat + 1 + 1 from rfl, wait_go_succ]
  simp [hr, hw]

/-- Helper: on an all-accepting bus, `set_goal_positions` succeeds and appends exactly one transmitted command. -/
theorem mc_set_goal_ok (env : Env) (st : MainSt) (p : Pos4)
    (hbus : ∀ i pr, env.bus.addParamOk i pr = true) (htx : env.bus.txResult = 0) :
    mc_set_goal_positions env st p = (none, { st with cmds := st.cmds ++ [p] }) := by
  simp [mc_set_goal_positions, set_goal_positions, hbus, htx, COMM_SUCCESS]

/-- Helper: evaluation of an in-range `set_motor_positions` call whose first poll converges. -/
theorem set_motor_positions_healthy (env : Env) (st : MainSt) (v : ℚ) (q : Int)
    (threshold : Int) (p : Pos4)
    (hlo : MIN_POSITION ≤ v) (hhi : v ≤ MAX_POSITION)
    (hq : pyInt (np_clipQ MIN_POSITION MAX_POSITION v) = q)
    (hbus : ∀ i pr, env.bus.addParamOk i pr = true) (htx : env.bus.txResult = 0)
    (hr : env.motorReads st.motorIdx = .ok p)
    (hw : withinThreshold ⟨q, q, q, q⟩ p threshold = true) :
    set_motor_positions env st v v v v threshold =
      some (none, { st with motorIdx := st.motorIdx + 1, cmds := st.cmds ++ [⟨q, q, q, q⟩] }) := by
  have hir : ¬ (v < MIN_POSITION ∨ v > MAX_POSITION ∨ v < MIN_POSITION ∨ v > MAX_POSITION ∨
      v < MIN_POSITION ∨ v > MAX_POSITION ∨ v < MIN_POSITION ∨ v > MAX_POSITION) := by
    push_neg
    exact ⟨by linarith, by linarith, by linarith, by linarith, by linarith, by linarith,
      by linarith, by linarith⟩
  rw [set_motor_positions, if_neg hir]
  simp only [hq]
  simp only [mc_set_goal_ok env st ⟨q, q, q, q⟩ hbus htx]
  simp only [mc_wait_converged env { st with cmds := st.cmds ++ [⟨q, q, q, q⟩] }
    ⟨q, q, q, q⟩ threshold 5 p hr hw]

/-- Helper: evaluation of one healthy `blackbox` call (in range, converging, buffer filled, no interrupt). -/
theorem blackbox_healthy (env : Env) (st : MainSt) (v : ℚ) (q : Int)
    (threshold : Int) (p : Pos4) (d : List ℚ)
    (hlo : MIN_POSITION ≤ v) (hhi : v ≤ MAX_POSITION)
    (hq : pyInt (np_clipQ MIN_POSITION MAX_POSITION v) = q)
    (hbus : ∀ i pr, env.bus.addParamOk i pr = true) (htx : env.bus.txResult = 0)
    (hr : env.motorReads st.motorIdx = .ok p)
    (hw : withinThreshold ⟨q, q, q, q⟩ p threshold = true)
    (hni : ¬ env.interruptAt = some st.scopeIdx)
    (hd : env.scopeData st.scopeIdx = d) (hlen : 3 ≤ d.length) (fuel : Nat) :
    blackbox env st v v v v threshold (fuel + 1) =
      some (.ok (((d.drop (d.length - 3)).sum / 3 - OSCILLOSCOPE_SCALING_OFFSET) /
          OSCILLOSCOPE_SCALING_FACTOR),
        { motorIdx := st.motorIdx + 1, scopeIdx := st.scopeIdx + 1,
          cmds := st.cmds ++ [⟨q, q, q, q⟩] }) := by
  simp only [blackbox,
    set_motor_positions_healthy env st v q threshold p hlo hhi hq hbus htx hr hw]
  unfold get_mean_oscilloscope_value
  rw [get_mean_go_succ]
  simp only [hd, if_neg hni, hlen, if_pos]

/-- Helper: evaluation of a `blackbox` call whose oscilloscope read is hit by the asynchronous `KeyboardInterrupt`. -/
theorem blackbox_interrupted (env : Env) (st : MainSt) (v : ℚ) (q : Int)
    (threshold : Int) (p : Pos4)
    (hlo : MIN_POSITION ≤ v) (hhi : v ≤ MAX_POSITION)
    (hq : pyInt (np_clipQ MIN_POSITION MAX_POSITION v) = q)
    (hbus : ∀ i pr, env.bus.addParamOk i pr = true) (htx : env.bus.txResult = 0)
    (hr : env.motorReads st.motorIdx = .ok p)
    (hw : withinThreshold ⟨q, q, q, q⟩ p threshold = true)
    (hi : env.interruptAt = some st.scopeIdx) (fuel : Nat) :
    blackbox env st v v v v threshold (fuel + 1) =
      some (.error .keyboardInterrupt,
        { motorIdx := st.motorIdx + 1, scopeIdx := st.scopeIdx,
          cmds := st.cmds ++ [⟨q, q, q, q⟩] }) := by
  simp only [blackbox,
    set_motor_positions_healthy env st v q threshold p hlo hhi hq hbus htx hr hw]
  unfold get_mean_oscilloscope_value
  rw [get_mean_go_succ]
  simp only [hi, if_pos]

/-! ### C2: out-of-range objective evaluation -/

/-- Counterexample to C2 as stated: at the out-of-range input `pos1 = 400`
(`MIN_POSITION = 500`), `blackbox` commands no motion (`cmds` stays empty,
`motorIdx` stays 0) and raises nothing, but it is not a no-op: it still takes
an oscilloscope sample (`scopeIdx` ends at 1) and returns a metric computed
at the unchanged position. -/
theorem blackbox_out_of_range_samples_cex :
    blackbox envA st0 400 1000 1000 1000 2 1 =
      some (.ok (((2 : ℚ) - OSCILLOSCOPE_SCALING_OFFSET) / OSCILLOSCOPE_SCALING_FACTOR),
        { motorIdx := 0, scopeIdx := 1, cmds := [] }) := by
  have hoor : (400 : ℚ) < MIN_POSITION ∨ (400 : ℚ) > MAX_POSITION ∨
      (1000 : ℚ) < MIN_POSITION ∨ (1000 : ℚ) > MAX_POSITION ∨
      (1000 : ℚ) < MIN_POSITION ∨ (1000 : ℚ) > MAX_POSITION ∨
      (1000 : ℚ) < MIN_POSITION ∨ (1000 : ℚ) > MAX_POSITION := by
    norm_num [MIN_POSITION, MAX_POSITION]
  simp only [blackbox, set_motor_positions, if_pos hoor, get_mean_oscilloscope_value]
  rw [show (1 : Nat) = 0 + 1 from rfl, get_mean_go_succ]
  have hmean : ((((envA.scopeData st0.scopeIdx).drop
      ((envA.scopeData st0.scopeIdx).length - 3)).sum / 3 : ℚ)) = 2 := by
    norm_num [envA, st0]
  simp only [envA, st0, hmean]
  norm_num
  rfl

/-- Helper: without an interrupt, a returning buffer-fill loop returns a mean and strictly advances the read index. -/
theorem get_mean_go_ok_no_interrupt (env : Env) (hni : env.interruptAt = none) :
    ∀ (fuel k : Nat) (r : Except PyErr (ℚ × Nat)), get_mean_go env k fuel = some r →
      ∃ m k2, r = .ok (m, k2) ∧ k < k2 := by
  intro fuel
  induction fuel with
  | zero => intro k r h; simp [get_mean_go] at h
  | succ f ih =>
    intro k r h
    rw [get_mean_go_succ] at h
    rw [hni] at h
    simp only [reduceCtorEq, if_false] at h
    by_cases hl : 3 ≤ (env.scopeData k).length
    · simp only [hl, if_pos, Option.some.injEq] at h
      exact ⟨_, k + 1, h.symm, by omega⟩
    · simp only [hl, if_false] at h
      obtain ⟨m, k2, hr, hk⟩ := ih (k + 1) r h
      exact ⟨m, k2, hr, by omega⟩

/-- C2 (amended): when any axis value lies outside
`[MIN_POSITION, MAX_POSITION]`, `set_motor_positions` is a no-op (it returns
the state unchanged: no motor command, no oscilloscope read, no exception);
`blackbox` on the same input likewise commands no motion, consumes no motor
read and raises nothing (absent an external interrupt), but it still takes an
oscilloscope sample and returns the metric of the unmoved system. -/
theorem blackbox_out_of_range_amended (env : Env) (st : MainSt) (pos1 pos2 pos3 pos4 : ℚ)
    (threshold : Int) (meanFuel : Nat) :
    ((pos1 < MIN_POSITION ∨ pos1 > MAX_POSITION ∨ pos2 < MIN_POSITION ∨ pos2 > MAX_POSITION ∨
        pos3 < MIN_POSITION ∨ pos3 > MAX_POSITION ∨ pos4 < MIN_POSITION ∨ pos4 > MAX_POSITION) →
      set_motor_positions env st pos1 pos2 pos3 pos4 threshold = some (none, st)) ∧
    ((pos1 < MIN_POSITION ∨ pos1 > MAX_POSITION ∨ pos2 < MIN_POSITION ∨ pos2 > MAX_POSITION ∨
        pos3 < MIN_POSITION ∨ pos3 > MAX_POSITION ∨ pos4 < MIN_POSITION ∨ pos4 > MAX_POSITION) →
      env.interruptAt = none →
      ∀ r st2, blackbox env st pos1 pos2 pos3 pos4 threshold meanFuel = some (r, st2) →
        st2.cmds = st.cmds ∧ st2.motorIdx = st.motorIdx ∧ st.scopeIdx < st2.scopeIdx ∧
        ∃ q, r = .ok q) := by
  have hnoop : (pos1 < MIN_POSITION ∨ pos1 > MAX_POSITION ∨ pos2 < MIN_POSITION ∨
      pos2 > MAX_POSITION ∨ pos3 < MIN_POSITION ∨ pos3 > MAX_POSITION ∨
      pos4 < MIN_POSITION ∨ pos4 > MAX_POSITION) →
      set_motor_positions env st pos1 pos2 pos3 pos4 threshold = some (none, st) := by
    intro hoor
    unfold set_motor_positions
    rw [if_pos hoor]
  refine ⟨hnoop, fun hoor hni r st2 h => ?_⟩
  unfold blackbox at h
  rw [hnoop hoor] at h
  simp only at h
  unfold get_mean_oscilloscope_value at h
  rcases hg : get_mean_go env st.scopeIdx meanFuel with _ | rr
  · rw [hg] at h; simp at h
  · obtain ⟨m, k2, hrr, hk⟩ := get_mean_go_ok_no_interrupt env hni meanFuel st.scopeIdx rr hg
    subst hrr
    rw [hg] at h
    simp only [Option.some.injEq, Prod.mk.injEq] at h
    obtain ⟨hr, hst⟩ := h
    subst hr hst
    exact ⟨rfl, rfl, hk, _, rfl⟩

/-! ### C5: the objective's metric and the missing noise-floor check -/

/-- Counterexample to C5 as stated: a fully in-range evaluation whose metric
`(2 - 8000000) / 10000000 < 0` lies below any non-negative noise floor, yet
`blackbox` raises nothing and returns the metric — the code contains no
noise-floor comparison and no `SignalNotDetected`. -/
theorem blackbox_below_floor_returns_cex :
    blackbox envA st0 1000 1000 1000 1000 2 1 =
      some (.ok (((2 : ℚ) - OSCILLOSCOPE_SCALING_OFFSET) / OSCILLOSCOPE_SCALING_FACTOR),
        { motorIdx := 1, scopeIdx := 1, cmds := [⟨1000, 1000, 1000, 1000⟩] }) ∧
    ((2 : ℚ) - OSCILLOSCOPE_SCALING_OFFSET) / OSCILLOSCOPE_SCALING_FACTOR < 0 := by
  constructor
  · have h := blackbox_healthy envA st0 1000 1000 2 ⟨1000, 1000, 1000, 1000⟩ [1, 2, 3]
      (by norm_num [MIN_POSITION]) (by norm_num [MAX_POSITION])
      (by norm_num [pyInt, np_clipQ, MIN_POSITION, MAX_POSITION])
      (fun i pr => rfl) rfl rfl (by decide) (by simp [envA, st0]) rfl (by norm_num) 0
    refine h.trans ?_
    norm_num [st0]
  · norm_num [OSCILLOSCOPE_SCALING_OFFSET, OSCILLOSCOPE_SCALING_FACTOR]

/-- Helper: the only exception the buffer-fill loop raises is `KeyboardInterrupt`. -/
theorem get_mean_go_err_is_interrupt (env : Env) :
    ∀ (fuel k : Nat) (r : Except PyErr (ℚ × Nat)), get_mean_go env k fuel = some r →
      ∀ e, r = .error e → e = .keyboardInterrupt := by
  intro fuel
  induction fuel with
  | zero => intro k r h; simp [get_mean_go] at h
  | succ f ih =>
    intro k r h e hre
    rw [get_mean_go_succ] at h
    by_cases hi : env.interruptAt = some k
    · simp only [hi, if_pos, Option.some.injEq] at h
      rw [hre] at h
      simp only [Except.error.injEq] at h
      exact h.symm
    · simp only [hi, if_false] at h
      by_cases hl : 3 ≤ (env.scopeData k).length
      · simp only [hl, if_pos, Option.some.injEq] at h
        rw [hre] at h
        simp at h
      · simp only [hl, if_false] at h
        exact ih (k + 1) r h e hre

/-- Helper: `set_goal_positions` touches neither oracle index and raises only `RuntimeError`. -/
theorem mc_set_goal_char (env : Env) (st : MainSt) (p : Pos4) :
    (mc_set_goal_positions env st p).2.scopeIdx = st.scopeIdx ∧
    (mc_set_goal_positions env st p).2.motorIdx = st.motorIdx ∧
    ∀ e, (mc_set_goal_positions env st p).1 = some e → ∃ msg, e = .runtimeError msg := by
  unfold mc_set_goal_positions
  rcases h : (set_goal_positions env.bus env.ids p.p1 p.p2 p.p3 p.p4).2 with _ | msg
  · simp
  · simp

/-- Helper: the convergence wait touches neither the oscilloscope index nor the command list, and raises only `RuntimeError`. -/
theorem mc_wait_char (env : Env) (st : MainSt) (goal : Pos4) (threshold : Int) (t : ℚ) :
    ∀ r st2, mc_wait_for_positions env st goal threshold t = some (r, st2) →
      st2.scopeIdx = st.scopeIdx ∧ st2.cmds = st.cmds ∧
      ∀ e, r = .error e → ∃ msg, e = .runtimeError msg := by
  intro r st2 h
  unfold mc_wait_for_positions at h
  rcases hw : wait_for_positions (fun k => env.motorReads (st.motorIdx + k)) goal threshold
      (some t) (timeoutFuel t) with _ | ⟨e0 | b, m⟩
  · rw [hw] at h; simp at h
  · rw [hw] at h
    simp only [Option.some.injEq, Prod.mk.injEq] at h
    obtain ⟨hr, hst⟩ := h
    subst hr hst
    refine ⟨rfl, rfl, fun e he => ⟨"Sync read failed", ?_⟩⟩
    cases he
    rfl
  · rw [hw] at h
    simp only [Option.some.injEq, Prod.mk.injEq] at h
    obtain ⟨hr, hst⟩ := h
    subst hr hst
    simp

/-- Helper: `set_motor_positions` never reads the oscilloscope and raises only `RuntimeError`. -/
theorem set_motor_positions_char (env : Env) (st : MainSt) (pos1 pos2 pos3 pos4 : ℚ)
    (threshold : Int) : ∀ o st2,
    set_motor_positions env st pos1 pos2 pos3 pos4 threshold = some (o, st2) →
      st2.scopeIdx = st.scopeIdx ∧
      ∀ e, o = some e → ∃ msg, e = PyErr.runtimeError msg := by
  intro o st2 h
  unfold set_motor_positions at h
  split at h
  · simp only [Option.some.injEq, Prod.mk.injEq] at h
    obtain ⟨ho, hst⟩ := h
    subst ho hst
    exact ⟨rfl, fun e he => by cases he⟩
  · simp only [] at h
    split at h
    next e st1 heq =>
      simp only [Option.some.injEq, Prod.mk.injEq] at h
      obtain ⟨ho, hst⟩ := h
      subst ho hst
      have hc := mc_set_goal_char env st ⟨pyInt (np_clipQ MIN_POSITION MAX_POSITION pos1),
        pyInt (np_clipQ MIN_POSITION MAX_POSITION pos2),
        pyInt (np_clipQ MIN_POSITION MAX_POSITION pos3),
        pyInt (np_clipQ MIN_POSITION MAX_POSITION pos4)⟩
      rw [heq] at hc
      exact ⟨hc.1, fun e2 he2 => hc.2.2 e2 (by rw [← he2])⟩
    next st1 heq =>
      have hc := mc_set_goal_char env st ⟨pyInt (np_clipQ MIN_POSITION MAX_POSITION pos1),
        pyInt (np_clipQ MIN_POSITION MAX_POSITION pos2),
        pyInt (np_clipQ MIN_POSITION MAX_POSITION pos3),
        pyInt (np_clipQ MIN_POSITION MAX_POSITION pos4)⟩
      rw [heq] at hc
      split at h
      · exact absurd h (by simp)
      next e st2x hw =>
        simp only [Option.some.injEq, Prod.mk.injEq] at h
        obtain ⟨ho, hst⟩ := h
        subst ho hst
        have hwc := mc_wait_char env st1 _ threshold 5 _ _ hw
        refine ⟨hwc.1.trans hc.1, fun e2 he2 => ?_⟩
        cases he2
        exact hwc.2.2 e rfl
      next b st2x hw =>
        simp only [Option.some.injEq, Prod.mk.injEq] at h
        obtain ⟨ho, hst⟩ := h
        subst ho hst
        have hwc := mc_wait_char env st1 _ threshold 5 _ _ hw
        exact ⟨hwc.1.trans hc.1, fun e2 he2 => by cases he2⟩

/-- C5 (amended): whenever `blackbox` returns a value, the value is
`(raw - OSCILLOSCOPE_SCALING_OFFSET) / OSCILLOSCOPE_SCALING_FACTOR` for the
sampled raw mean; and `blackbox` never raises `SignalNotDetected` for any
metric — the code has no noise-floor check, so the only exceptions are the
transport `RuntimeError`s and the external `KeyboardInterrupt`. -/
theorem blackbox_metric_amended (env : Env) (st : MainSt) (pos1 pos2 pos3 pos4 : ℚ)
    (threshold : Int) (meanFuel : Nat) :
    (∀ r st2, blackbox env st pos1 pos2 pos3 pos4 threshold meanFuel = some (r, st2) →
      ∀ e, r = .error e → e ≠ PyErr.signalNotDetected) ∧
    (∀ r st2, blackbox env st pos1 pos2 pos3 pos4 threshold meanFuel = some (r, st2) →
      ∀ q, r = .ok q → ∃ mean k2,
        get_mean_go env st.scopeIdx meanFuel = some (.ok (mean, k2)) ∧
        q = (mean - OSCILLOSCOPE_SCALING_OFFSET) / OSCILLOSCOPE_SCALING_FACTOR) := by
  have main : ∀ r st2, blackbox env st pos1 pos2 pos3 pos4 threshold meanFuel = some (r, st2) →
      (∀ e, r = .error e → e ≠ PyErr.signalNotDetected) ∧
      (∀ q, r = .ok q → ∃ mean k2,
        get_mean_go env st.scopeIdx meanFuel = some (.ok (mean, k2)) ∧
        q = (mean - OSCILLOSCOPE_SCALING_OFFSET) / OSCILLOSCOPE_SCALING_FACTOR) := by
    intro r st2 h
    unfold blackbox at h
    split at h
    · simp at h
    next e st1 hsm =>
      have hc := set_motor_positions_char env st pos1 pos2 pos3 pos4 threshold _ _ hsm
      simp only [Option.some.injEq, Prod.mk.injEq] at h
      obtain ⟨hr, hst⟩ := h
      subst hr hst
      obtain ⟨msg, hmsg⟩ := hc.2 e rfl
      subst hmsg
      exact ⟨fun e2 he2 => by cases he2; simp, fun q hq => by cases hq⟩
    next st1 hsm =>
      have hc := set_motor_positions_char env st pos1 pos2 pos3 pos4 threshold _ _ hsm
      unfold get_mean_oscilloscope_value at h
      rcases hg : get_mean_go env st1.scopeIdx meanFuel with _ | rr
      · rw [hg] at h; simp at h
      · rw [hg] at h
        rcases rr with e2 | ⟨m, k2⟩
        · simp only [Option.some.injEq, Prod.mk.injEq] at h
          obtain ⟨hr, hst⟩ := h
          subst hr hst
          have he2 := get_mean_go_err_is_interrupt env meanFuel st1.scopeIdx _ hg e2 rfl
          subst he2
          exact ⟨fun e3 he3 => by cases he3; simp, fun q hq => by cases hq⟩
        · simp only [Option.some.injEq, Prod.mk.injEq] at h
          obtain ⟨hr, hst⟩ := h
          subst hr hst
          constructor
          · intro e3 he3
            cases he3
          · intro q hq
            cases hq
            exact ⟨m, k2, by rw [← hc.1]; exact hg, rfl⟩
  exact ⟨fun r st2 h => (main r st2 h).1, fun r st2 h => (main r st2 h).2⟩

/-! ### C6: boundedness of the waiting loops -/

/-- Helper: with `timeout=None` and readings that never converge, the wait loop exhausts any fuel. -/
theorem wait_go_none_c6 : ∀ (fuel k : Nat),
    wait_go envC6.motorReads ⟨100, 0, 0, 0⟩ 0 none k fuel = none := by
  intro fuel
  induction fuel with
  | zero => intro k; rfl
  | succ f ih =>
    intro k
    rw [wait_go_succ]
    simp only [show envC6.motorReads k = .ok ⟨0, 0, 0, 0⟩ from rfl,
      show withinThreshold ⟨100, 0, 0, 0⟩ ⟨0, 0, 0, 0⟩ 0 = false from rfl,
      Bool.false_eq_true, if_false]
    exact ih (k + 1)

/-- Helper: with an oscilloscope buffer that never fills, the buffer-fill loop exhausts any fuel. -/
theorem get_mean_go_none_c6 : ∀ (fuel k : Nat), get_mean_go envC6 k fuel = none := by
  intro fuel
  induction fuel with
  | zero => intro k; rfl
  | succ f ih =>
    intro k
    rw [get_mean_go_succ]
    simp only [show envC6.interruptAt = none from rfl]
    simp only [show envC6.scopeData k = [] from rfl]
    simp
    exact ih (k + 1)

/-- Counterexample to C6 as stated: with `timeout=None` and servo readings
that never converge, `wait_for_positions` returns for no amount of fuel —
the loop is an unbounded block; likewise the buffer-fill wait of
`get_mean_oscilloscope_value` when the capture buffer never reaches 3
points. -/
theorem waits_unbounded_cex :
    ((fun fuel => wait_for_positions envC6.motorReads ⟨100, 0, 0, 0⟩ 0 none fuel) =
      fun _ => none) ∧
    ((fun fuel => get_mean_go envC6 0 fuel) = fun _ => none) := by
  constructor
  · funext fuel
    exact wait_go_none_c6 fuel 0
  · funext fuel
    exact get_mean_go_none_c6 fuel 0

/-- C6 (amended): only the convergence wait with a non-`None` timeout is a
bounded poll loop — it finishes within `timeoutFuel t` polls for every
reading stream, threshold and timeout; with `timeout=None`, and for the
buffer-fill wait, the loop polls forever when its condition never holds (see
the counterexample). -/
theorem wait_bounded_with_timeout (reads : Nat → Except Unit Pos4) (goal : Pos4)
    (threshold : Int) (t : ℚ) :
    (wait_for_positions reads goal threshold (some t) (timeoutFuel t)).isSome = true := by
  have hb : t < (((0 + ((⌈t * 100⌉).toNat + 1) : Nat)) : ℚ) * poll_interval := by
    have hc1 : t * 100 ≤ (⌈t * 100⌉ : ℚ) := Int.le_ceil _
    have hc2 : (⌈t * 100⌉ : ℚ) ≤ ((⌈t * 100⌉).toNat : ℚ) := by
      exact_mod_cast Int.self_le_toNat _
    push_cast
    rw [poll_interval]
    linarith
  have hres := wait_go_total_aux reads goal threshold t ((⌈t * 100⌉).toNat + 1) 0 hb
  have he : timeoutFuel t = (⌈t * 100⌉).toNat + 1 + 1 := by unfold timeoutFuel; omega
  rw [wait_for_positions, he]
  exact hres

/-! ### C7: exception handling at the phase boundary -/

/-- Counterexample to C7 as stated: a `KeyboardInterrupt` arrives during the
second surrogate evaluation, after the first evaluation set the best-known
position `(1000, 1000, 1000, 1000)`.  The orchestrator catches it and
returns `None` (`.interrupted`), but it does not command the actuator to the
best-known position: the command list ends with the interrupted attempt
`(1001, 1001, 1001, 1001)` and nothing is appended after the catch. -/
theorem optimization_interrupt_cex :
    optimization envB 1 7 0 2 st0 =
      some (.ok .interrupted,
        { motorIdx := 3, scopeIdx := 1,
          cmds := [⟨1000, 1000, 1000, 1000⟩, ⟨1001, 1001, 1001, 1001⟩] }) := by
  have hb1 := blackbox_healthy envB ⟨1, 0, []⟩ 1000 1000 1 ⟨1000, 1000, 1000, 1000⟩ [1, 2, 3]
    (by norm_num [MIN_POSITION]) (by norm_num [MAX_POSITION])
    (by norm_num [pyInt, np_clipQ, MIN_POSITION, MAX_POSITION])
    (fun i pr => rfl) rfl rfl (by decide) (by simp [envB]) rfl (by norm_num) 0
  have hb2 := blackbox_interrupted envB
      ⟨2, 1, [⟨1000, 1000, 1000, 1000⟩]⟩ 1001 1001 1 ⟨1000, 1000, 1000, 1000⟩
    (by norm_num [MIN_POSITION]) (by norm_num [MAX_POSITION])
    (by norm_num [pyInt, np_clipQ, MIN_POSITION, MAX_POSITION])
    (fun i pr => rfl) rfl rfl (by decide) (by simp [envB]) 0
  have e0 : envB.proposals 0 = (1000, 1000, 1000, 1000) := rfl
  have e1 : envB.proposals 1 = (1001, 1001, 1001, 1001) := by norm_num [envB]
  unfold optimization
  rw [manualLoop_zero]
  simp only [mc_read_positions,
    show envB.motorReads st0.motorIdx = .ok ⟨1000, 1000, 1000, 1000⟩ from rfl]
  rw [show (2 : Nat) = 1 + 1 from rfl, surrogateLoop_succ]
  simp only [e0, st0, Nat.zero_add, List.nil_append]
  rw [hb1]
  simp only [if_pos (WithBot.bot_lt_coe _)]
  rw [show (1 : Nat) = 0 + 1 from rfl, surrogateLoop_succ]
  simp only [e1, Nat.zero_add, Nat.reduceAdd, List.nil_append]
  rw [hb2]
  norm_num

/-- C7 (amended): `optimization` catches a `KeyboardInterrupt` or other
exception raised inside the surrogate phase at the phase boundary and
returns `None` with the state exactly as at the exception — it does not
command the actuator to the best-known position (a manual-phase exception is
likewise swallowed, before the run proceeds into the surrogate phase); the
best-position command runs only when the surrogate loop completes
normally. -/
theorem optimization_phase_boundary_amended (env : Env) (meanFuel : Nat) (threshold : Int)
    (mIters sIters : Nat) (st : MainSt) :
    (∀ a st1 y1 pos st2 eL st3 bp bY,
      manualLoop env meanFuel threshold mIters 0 st ⊥ = some (a, st1, y1) →
      mc_read_positions env st1 = (.ok pos, st2) →
      surrogateLoop env meanFuel sIters 0 st2 none ⊥ = some (some eL, st3, bp, bY) →
      optimization env meanFuel threshold mIters sIters st = some (.ok .interrupted, st3)) ∧
    (∀ a st1 y1 pos st2 st3 x bY st4,
      manualLoop env meanFuel threshold mIters 0 st ⊥ = some (a, st1, y1) →
      mc_read_positions env st1 = (.ok pos, st2) →
      surrogateLoop env meanFuel sIters 0 st2 none ⊥ = some (none, st3, some x, bY) →
      set_motor_positions env st3 x.1 x.2.1 x.2.2.1 x.2.2.2 1 = some (none, st4) →
      optimization env meanFuel threshold mIters sIters st =
        some (.ok (.completed bY), st4)) := by
  constructor
  · intro a st1 y1 pos st2 eL st3 bp bY hm hr hs
    unfold optimization
    rw [hm]
    simp only
    rw [hr]
    simp only
    rw [hs]
  · intro a st1 y1 pos st2 st3 x bY st4 hm hr hs hsm
    unfold optimization
    rw [hm]
    simp only
    rw [hr]
    simp only
    rw [hs]
    simp only
    rw [hsm]

/-! ### C8: monotonicity of the best values -/

/-- Helper: one axis scan never decreases the running best value, and changes the best pair only by a strict improvement. -/
theorem scanAxis_mono (env : Env) (mf : Nat) (thr : Int) (a : Fin 4) :
    ∀ (cands : List Int) (st : MainSt) (bp : Pos4) (bY : WithBot ℚ)
      (o : Option PyErr) (st2 : MainSt) (bp2 : Pos4) (bY2 : WithBot ℚ),
      scanAxis env mf thr a cands st bp bY = some (o, st2, bp2, bY2) →
      bY ≤ bY2 ∧ ((bp2 = bp ∧ bY2 = bY) ∨ bY < bY2) := by
  intro cands
  induction cands with
  | nil =>
    intro st bp bY o st2 bp2 bY2 h
    simp only [scanAxis, Option.some.injEq, Prod.mk.injEq] at h
    obtain ⟨ho, hst, hbp, hbY⟩ := h
    exact ⟨le_of_eq hbY, Or.inl ⟨hbp.symm, hbY.symm⟩⟩
  | cons c rest ih =>
    intro st bp bY o st2 bp2 bY2 h
    rw [scanAxis] at h
    split at h
    · simp at h
    next e st1 hsm =>
      simp only [Option.some.injEq, Prod.mk.injEq] at h
      obtain ⟨ho, hst, hbp, hbY⟩ := h
      exact ⟨le_of_eq hbY, Or.inl ⟨hbp.symm, hbY.symm⟩⟩
    next st1 hsm =>
      split at h
      · simp at h
      next e st2' hgm =>
        simp only [Option.some.injEq, Prod.mk.injEq] at h
        obtain ⟨ho, hst, hbp, hbY⟩ := h
        exact ⟨le_of_eq hbY, Or.inl ⟨hbp.symm, hbY.symm⟩⟩
      next mean st2' hgm =>
        split at h
        next hlt =>
          obtain ⟨h1, h2⟩ := ih _ _ _ _ _ _ _ h
          have hlt2 : bY < bY2 := lt_of_lt_of_le hlt h1
          exact ⟨le_of_lt hlt2, Or.inr hlt2⟩
        next hnlt =>
          exact ih _ _ _ _ _ _ _ h

/-- Helper: the surrogate loop never decreases the best value, and changes the best pair only by a strict improvement. -/
theorem surrogateLoop_mono (env : Env) (mf : Nat) :
    ∀ (n t : Nat) (st : MainSt) (bp : Option (ℚ × ℚ × ℚ × ℚ)) (bY : WithBot ℚ)
      (o : Option PyErr) (st2 : MainSt) (bp2 : Option (ℚ × ℚ × ℚ × ℚ)) (bY2 : WithBot ℚ),
      surrogateLoop env mf n t st bp bY = some (o, st2, bp2, bY2) →
      bY ≤ bY2 ∧ ((bp2 = bp ∧ bY2 = bY) ∨ bY < bY2) := by
  intro n
  induction n with
  | zero =>
    intro t st bp bY o st2 bp2 bY2 h
    simp only [surrogateLoop, Option.some.injEq, Prod.mk.injEq] at h
    obtain ⟨ho, hst, hbp, hbY⟩ := h
    exact ⟨le_of_eq hbY, Or.inl ⟨hbp.symm, hbY.symm⟩⟩
  | succ m ih =>
    intro t st bp bY o st2 bp2 bY2 h
    rw [surrogateLoop] at h
    split at h
    · simp at h
    next e st1 hbb =>
      simp only [Option.some.injEq, Prod.mk.injEq] at h
      obtain ⟨ho, hst, hbp, hbY⟩ := h
      exact ⟨le_of_eq hbY, Or.inl ⟨hbp.symm, hbY.symm⟩⟩
    next y st1 hbb =>
      split at h
      next hlt =>
        obtain ⟨h1, h2⟩ := ih _ _ _ _ _ _ _ _ h
        have hlt2 : bY < bY2 := lt_of_lt_of_le hlt h1
        exact ⟨le_of_lt hlt2, Or.inr hlt2⟩
      next hnlt =>
        exact ih _ _ _ _ _ _ _ _ h

/-- Helper: one outer manual-search iteration never decreases the best value. -/
theorem manualIter_mono (env : Env) (mf : Nat) (thr : Int) (i : Nat) :
    ∀ (st : MainSt) (bY : WithBot ℚ) (o : Option PyErr) (st2 : MainSt) (bY2 : WithBot ℚ),
      manualIter env mf thr i st bY = some (o, st2, bY2) → bY ≤ bY2 := by
  intro st bY o st2 bY2 h
  unfold manualIter at h
  split at h
  next e st1 hrd =>
    simp only [Option.some.injEq, Prod.mk.injEq] at h
    obtain ⟨ho, hst, hbY⟩ := h
    exact le_of_eq hbY
  next pos st1 hrd =>
    simp only [] at h
    split at h
    · simp at h
    next e st2' y2 hs1 =>
      have m1 := (scanAxis_mono env mf thr 0 _ _ _ _ _ _ _ _ hs1).1
      simp only [Option.some.injEq, Prod.mk.injEq] at h
      obtain ⟨ho, hst, hbY⟩ := h
      exact le_trans m1 (le_of_eq hbY)
    next st2' bp2 y2 hs1 =>
      have m1 := (scanAxis_mono env mf thr 0 _ _ _ _ _ _ _ _ hs1).1
      split at h
      · simp at h
      next e st3' y3 hs2 =>
        have m2 := (scanAxis_mono env mf thr 1 _ _ _ _ _ _ _ _ hs2).1
        simp only [Option.some.injEq, Prod.mk.injEq] at h
        obtain ⟨ho, hst, hbY⟩ := h
        exact le_trans m1 (le_trans m2 (le_of_eq hbY))
      next st3' bp3 y3 hs2 =>
        have m2 := (scanAxis_mono env mf thr 1 _ _ _ _ _ _ _ _ hs2).1
        split at h
        · simp at h
        next e st4' y4 hs3 =>
          have m3 := (scanAxis_mono env mf thr 2 _ _ _ _ _ _ _ _ hs3).1
          simp only [Option.some.injEq, Prod.mk.injEq] at h
          obtain ⟨ho, hst, hbY⟩ := h
          exact le_trans m1 (le_trans m2 (le_trans m3 (le_of_eq hbY)))
        next st4' bp4 y4 hs3 =>
          have m3 := (scanAxis_mono env mf thr 2 _ _ _ _ _ _ _ _ hs3).1
          split at h
          · simp at h
          next e st5' y5 hs4 =>
            have m4 := (scanAxis_mono env mf thr 3 _ _ _ _ _ _ _ _ hs4).1
            simp only [Option.some.injEq, Prod.mk.injEq] at h
            obtain ⟨ho, hst, hbY⟩ := h
            exact le_trans m1 (le_trans m2 (le_trans m3 (le_trans m4 (le_of_eq hbY))))
          next st5' bp5 y5 hs4 =>
            have m4 := (scanAxis_mono env mf thr 3 _ _ _ _ _ _ _ _ hs4).1
            have hy : bY ≤ y5 := le_trans m1 (le_trans m2 (le_trans m3 m4))
            split at h
            · simp at h
            next e st6' hs5 =>
              simp only [Option.some.injEq, Prod.mk.injEq] at h
              obtain ⟨ho, hst, hbY⟩ := h
              exact le_trans hy (le_of_eq hbY)
            next st6' hs5 =>
              simp only [Option.some.injEq, Prod.mk.injEq] at h
              obtain ⟨ho, hst, hbY⟩ := h
              exact le_trans hy (le_of_eq hbY)

/-- Helper: the whole manual-search loop never decreases the best value. -/
theorem manualLoop_mono (env : Env) (mf : Nat) (thr : Int) :
    ∀ (n i : Nat) (st : MainSt) (bY : WithBot ℚ) (o : Option PyErr) (st2 : MainSt)
      (bY2 : WithBot ℚ),
      manualLoop env mf thr n i st bY = some (o, st2, bY2) → bY ≤ bY2 := by
  intro n
  induction n with
  | zero =>
    intro i st bY o st2 bY2 h
    simp only [manualLoop, Option.some.injEq, Prod.mk.injEq] at h
    obtain ⟨ho, hst, hbY⟩ := h
    exact le_of_eq hbY
  | succ m ih =>
    intro i st bY o st2 bY2 h
    rw [manualLoop] at h
    split at h
    · simp at h
    next e st1 y1 hit =>
      have m1 := manualIter_mono env mf thr i _ _ _ _ _ hit
      simp only [Option.some.injEq, Prod.mk.injEq] at h
      obtain ⟨ho, hst, hbY⟩ := h
      exact le_trans m1 (le_of_eq hbY)
    next st1 y1 hit =>
      have m1 := manualIter_mono env mf thr i _ _ _ _ _ hit
      exact le_trans m1 (ih _ _ _ _ _ _ h)

/-- C8: within one run, each best value is monotonically non-decreasing over
the sequence of evaluations and is replaced only together with a strict
improvement — in particular the best value after scanning any one axis
(`scanAxis`), after any number of manual-search iterations (`manualLoop`),
and at every point of the surrogate phase (`surrogateLoop`) is at least the
best value before. -/
theorem best_value_monotone (env : Env) (mf : Nat) (thr : Int) :
    (∀ (a : Fin 4) (cands : List Int) (st : MainSt) (bp : Pos4) (bY : WithBot ℚ)
      (o : Option PyErr) (st2 : MainSt) (bp2 : Pos4) (bY2 : WithBot ℚ),
      scanAxis env mf thr a cands st bp bY = some (o, st2, bp2, bY2) →
      bY ≤ bY2 ∧ ((bp2 = bp ∧ bY2 = bY) ∨ bY < bY2)) ∧
    (∀ (n i : Nat) (st : MainSt) (bY : WithBot ℚ) (o : Option PyErr) (st2 : MainSt)
      (bY2 : WithBot ℚ),
      manualLoop env mf thr n i st bY = some (o, st2, bY2) → bY ≤ bY2) ∧
    (∀ (n t : Nat) (st : MainSt) (bp : Option (ℚ × ℚ × ℚ × ℚ)) (bY : WithBot ℚ)
      (o : Option PyErr) (st2 : MainSt) (bp2 : Option (ℚ × ℚ × ℚ × ℚ)) (bY2 : WithBot ℚ),
      surrogateLoop env mf n t st bp bY = some (o, st2, bp2, bY2) →
      bY ≤ bY2 ∧ ((bp2 = bp ∧ bY2 = bY) ∨ bY < bY2)) :=
  ⟨fun a cands st bp bY o st2 bp2 bY2 h =>
      scanAxis_mono env mf thr a cands st bp bY o st2 bp2 bY2 h,
    fun n i st bY o st2 bY2 h => manualLoop_mono env mf thr n i st bY o st2 bY2 h,
    fun n t st bp bY o st2 bp2 bY2 h =>
      surrogateLoop_mono env mf n t st bp bY o st2 bp2 bY2 h⟩

end UropMount
